import Mathlib

/-!
Shallow embedding of the clumpcoder math-game match orchestrator
(`src/unnamed/part_000`, the "improved" matchController, together with the
helpers it imports from `src/controller/questionController.js`).

Modelling conventions:
* JS numbers that hold scores, answers' time-left and level thresholds are
  rationals (`ℚ`); ratings and rating deltas are integers (`ℤ`), which is
  what the program stores (base 1000 plus integer deltas, floored at 0).
  The ELO expected score `1 / (1 + 10^((rB-rA)/400))` is modelled over `ℝ`.
* JS objects used as string-keyed maps (`room.scores`, `room.responses`,
  `rooms`, the player store) are association lists with distinct keys;
  `obj[k]` is `getAssoc`, `obj[k] = v` is `setAssoc`, `delete obj[k]` is
  `removeAssoc`, `Object.keys(obj).length` is `List.length`.
* `Math.random()`-based selection `l[Math.floor(Math.random()*l.length)]`
  is modelled by an oracle index `pick : ℕ` reduced mod the pool length.
* `setTimeout` callbacks are delivered as explicit messages (`Msg`):
  the match-expiry timer (`matchTimeoutFired`), and the 3-second settle
  delay scheduled by `processRoundResults` (`settleFired`, which runs
  `endMatch` or `sendNextQuestion` according to the question count, exactly
  as the two scheduled closures would).  The code registers no round timer.
* Socket broadcasts (`nsp.emit`) are collected in a returned `List Event`.
-/

namespace MathGame

/-- Game configuration constant `QUESTIONS_PER_MATCH` of `GAME_CONFIG`. -/
def QUESTIONS_PER_MATCH : Nat := 10

/-- Game configuration constant `MATCH_TIMEOUT` (ms) of `GAME_CONFIG`. -/
def MATCH_TIMEOUT : Nat := 300000

/-- Game configuration constant `ROUND_TIMEOUT` (ms) of `GAME_CONFIG`. -/
def ROUND_TIMEOUT : Nat := 60000

/-- Game configuration constant `BASE_RATING` of `GAME_CONFIG`. -/
def BASE_RATING : Int := 1000

/-- Game configuration constant `MIN_RATING` of `GAME_CONFIG`. -/
def MIN_RATING : Int := 0

/-- Game configuration constant `MAX_RATING_CHANGE` of `GAME_CONFIG`. -/
def MAX_RATING_CHANGE : Int := 50

/-- A question record as `loadQuestionsFromExcel` builds it (one per
spreadsheet row).  The loader sets `key`, `questionLevel`, `difficulty`,
`levelNumber`, `prompt`, `answer` (and a few more operand/metadata strings,
omitted as the core never reads them).  It never sets a field named `id`;
reading `q.id` in JS therefore yields `undefined`, modelled by `id = none`
on every loader-produced question.  The field is kept because
`sendNextQuestion` reads and records `q.id`. -/
structure Question where
  id : Option String
  key : String
  questionLevel : String
  difficulty : String
  levelNumber : Option Int
  prompt : String
  answer : String
deriving Repr, DecidableEq

/-- One participant's recorded submission for the current round
(`room.responses[playerId] = { answer, correct, points }`). -/
structure Response where
  answer : String
  correct : Bool
  points : ℚ
deriving Repr, DecidableEq

/-- A room as `createChallenge` builds it in the in-memory `rooms` table. -/
structure Room where
  players : List String
  playerNames : List (String × String)
  scores : List (String × ℚ)
  difficulty : String
  level : Int
  initialized : Bool
  responses : List (String × Response)
  questionCount : Nat
  questionsAsked : List (Option String)
  startTime : Option Nat
  currentQuestion : Option Question
deriving Repr, DecidableEq

/-- A stored player profile, reduced to the part the match core touches:
`player.pr.pvp`, the per-difficulty rating map. -/
structure Player where
  pvp : List (String × Int)
deriving Repr, DecidableEq

/-- The process-wide mutable state: the `rooms` table, the ids with a
pending match-expiry timer (`roomTimeouts`), and the player store the
`Player.findById` / `save` calls read and write. -/
structure ServerState where
  rooms : List (String × Room)
  roomTimeouts : List String
  playerStore : List (String × Player)
deriving Repr, DecidableEq

/-- JS object read `obj[k]` on a string-keyed map. -/
def getAssoc {β : Type} (l : List (String × β)) (k : String) : Option β :=
  (l.find? (fun p => p.1 == k)).map (fun p => p.2)

/-- JS object write `obj[k] = v`: replaces the binding when the key is
present, appends it otherwise. -/
def setAssoc {β : Type} (l : List (String × β)) (k : String) (v : β) :
    List (String × β) :=
  match l with
  | [] => [(k, v)]
  | (k', v') :: t => if k' == k then (k, v) :: t else (k', v') :: setAssoc t k v

/-- JS `delete obj[k]`. -/
def removeAssoc {β : Type} (l : List (String × β)) (k : String) :
    List (String × β) :=
  l.filter (fun p => p.1 != k)

theorem getAssoc_cons {β : Type} (k' : String) (v' : β) (t : List (String × β))
    (k : String) :
    getAssoc ((k', v') :: t) k = if k' = k then some v' else getAssoc t k := by
  by_cases hk : k' = k <;> simp [getAssoc, List.find?_cons, hk]

theorem getAssoc_setAssoc_self {β : Type} (l : List (String × β)) (k : String) (v : β) :
    getAssoc (setAssoc l k v) k = some v := by
  induction l with
  | nil => simp [getAssoc, setAssoc]
  | cons h t ih =>
    obtain ⟨k', v'⟩ := h
    by_cases hk : k' = k
    · simp [setAssoc, hk, getAssoc_cons]
    · simp [setAssoc, hk, getAssoc_cons, ih]

theorem getAssoc_removeAssoc_self {β : Type} (l : List (String × β)) (k : String) :
    getAssoc (removeAssoc l k) k = none := by
  induction l with
  | nil => simp [getAssoc, removeAssoc]
  | cons h t ih =>
    obtain ⟨k', v'⟩ := h
    by_cases hk : k' = k
    · simpa [removeAssoc, List.filter_cons, hk] using ih
    · simpa [removeAssoc, List.filter_cons, hk, getAssoc_cons] using ih

/-- Helper `getLevelFromScore` of `questionController.js`: the fixed
breakpoint table from a score to a question level 1..10. -/
def getLevelFromScore (score : ℚ) : Int :=
  if score ≤ 5 then 1
  else if score ≤ 9 then 2
  else if score ≤ 13 then 3
  else if score ≤ 17 then 4
  else if score ≤ 21 then 5
  else if score ≤ 25 then 6
  else if score ≤ 29 then 7
  else if score ≤ 33 then 8
  else if score ≤ 37 then 9
  else 10

/-- `Math.min(...values)`: `none` models the empty call (JS `Infinity`). -/
def jsMinList : List ℚ → Option ℚ
  | [] => none
  | x :: xs =>
    match jsMinList xs with
    | none => some x
    | some m => some (min x m)

/-- The level `sendNextQuestion` recomputes at round start:
`getLevelFromScore(Math.min(...Object.values(room.scores)))`.  On an empty
scores map `Math.min()` is `Infinity` and every breakpoint test fails, so
the table yields 10. -/
def roundStartLevel (room : Room) : Int :=
  match jsMinList (room.scores.map (fun p => p.2)) with
  | some m => getLevelFromScore m
  | none => 10

/-- The broadcasts `nsp.emit(...)` of the match namespace. -/
inductive Event where
  | matchStarted (timer : ℚ) (level : Int) (difficulty : String)
      (totalQuestions : Nat) (players : List (String × String))
  | newQuestion (question : Question) (level : Int) (questionNumber : Nat)
      (totalQuestions : Nat)
  | roundResult (scores : List (String × ℚ)) (responses : List (String × Response))
      (correctAnswer : String) (questionNumber : Nat)
  | matchEnded (reason : String) (scores : List (String × ℚ)) (winner : Option String)
      (ratingDeltas : List (String × Int)) (newRatings : List (String × Int))
      (matchDuration : Nat)
  | errorMessage (message : String)
deriving Repr, DecidableEq

/-- Correctness test of `handleAnswerSubmission`:
`String(answer).trim().toLowerCase() === String(q.answer).trim().toLowerCase()`. -/
def answersMatch (answer stored : String) : Bool :=
  answer.trim.toLower == stored.trim.toLower

/-- Points awarded for a submission: 1 plus the capped time bonus when
correct, 0 otherwise (`handleAnswerSubmission`, lines 444-453). -/
def awardedPoints (correct : Bool) (timeLeft : ℚ) : ℚ :=
  if correct then 1 + min (1/2) (timeLeft / ((ROUND_TIMEOUT : ℚ) / 1000) * (1/2)) else 0

/-- `room.currentQuestion.answer` as `processRoundResults` reads it; the
`none` case is unreachable from its one (guarded) caller, where JS would
throw instead. -/
def currentAnswerOf : Option Question → String
  | some q => q.answer
  | none => ""

/-- `setRoom st roomId room` is the in-place mutation of `rooms[roomId]`. -/
def setRoom (st : ServerState) (roomId : String) (room : Room) : ServerState :=
  { st with rooms := setAssoc st.rooms roomId room }

/-- `processRoundResults` (lines 464-484): bump `questionCount`, broadcast
the round result.  The 3-second `setTimeout` continuation (either
`endMatch` or `sendNextQuestion`) is delivered later as `Msg.settleFired`. -/
def processRoundResults (st : ServerState) (roomId : String) :
    ServerState × List Event :=
  match getAssoc st.rooms roomId with
  | none => (st, [])
  | some room =>
    let room' := { room with questionCount := room.questionCount + 1 }
    (setRoom st roomId room',
      [Event.roundResult room'.scores room'.responses
        (currentAnswerOf room'.currentQuestion) room'.questionCount])

/-- `handleAnswerSubmission` (lines 432-462).  Returns unchanged state when
the room is gone or has no current question, or when the participant already
responded this round (`if (room.responses[playerId]) return`, the stored
response object being always truthy). -/
def handleAnswerSubmission (st : ServerState) (roomId playerId answer : String)
    (timeLeft : ℚ) : ServerState × List Event :=
  match getAssoc st.rooms roomId with
  | none => (st, [])
  | some room =>
    match room.currentQuestion with
    | none => (st, [])
    | some q =>
      if (getAssoc room.responses playerId).isSome then (st, [])
      else
        let correct := answersMatch answer q.answer
        let points := awardedPoints correct timeLeft
        let room' := { room with
          scores := setAssoc room.scores playerId
            (((getAssoc room.scores playerId).getD 0) + points),
          responses := setAssoc room.responses playerId
            { answer := answer, correct := correct, points := points } }
        let st' := setRoom st roomId room'
        if room'.responses.length == room.players.length
        then processRoundResults st' roomId
        else (st', [])

/-! ## Rating engine (`calculateRatingChanges`, lines 489-537) -/

/-- JS `Math.round`: round half toward positive infinity, `⌊x + 1/2⌋`. -/
noncomputable def jsRound (x : ℝ) : Int := ⌊x + 1/2⌋

/-- `expectedA = 1 / (1 + Math.pow(10, (ratingB - ratingA) / 400))` — the
ELO expected score of player A, over the reals. -/
noncomputable def expectedScoreA (ratingA ratingB : Int) : ℝ :=
  1 / (1 + (10 : ℝ) ^ ((((ratingB - ratingA) : Int) : ℝ) / 400))

/-- `actualA` of `calculateRatingChanges`: 1, 0 or 0.5 by score comparison. -/
def actualScoreA (scoreA scoreB : ℚ) : ℚ :=
  if scoreA > scoreB then 1 else if scoreB > scoreA then 0 else 1/2

/-- `actualB` of `calculateRatingChanges`: 0, 1 or 0.5 by score comparison. -/
def actualScoreB (scoreA scoreB : ℚ) : ℚ :=
  if scoreA > scoreB then 0 else if scoreB > scoreA then 1 else 1/2

/-- `Math.min(10, Math.floor(scoreDiff * 2))` with `scoreDiff = |scoreA - scoreB|`. -/
def performanceBonus (scoreA scoreB : ℚ) : Int :=
  min 10 ⌊|scoreA - scoreB| * 2⌋

/-- The clamp of each final delta to `[-MAX_RATING_CHANGE, MAX_RATING_CHANGE]`. -/
def clampDelta (d : Int) : Int :=
  max (-MAX_RATING_CHANGE) (min MAX_RATING_CHANGE d)

/-- Core of `calculateRatingChanges` once both ratings are resolved: base
ELO delta (`K = 32`) per side, the performance bonus added to the higher
scorer and subtracted from the other, then the clamp. -/
noncomputable def ratingDeltas (ratingA ratingB : Int) (scoreA scoreB : ℚ) :
    Int × Int :=
  let expectedA := expectedScoreA ratingA ratingB
  let expectedB := 1 - expectedA
  let deltaA := jsRound (32 * (((actualScoreA scoreA scoreB : ℚ) : ℝ) - expectedA))
  let deltaB := jsRound (32 * (((actualScoreB scoreA scoreB : ℚ) : ℝ) - expectedB))
  let bonus := performanceBonus scoreA scoreB
  let deltaA' :=
    if scoreA > scoreB then deltaA + bonus
    else if scoreB > scoreA then deltaA - bonus else deltaA
  let deltaB' :=
    if scoreA > scoreB then deltaB - bonus
    else if scoreB > scoreA then deltaB + bonus else deltaB
  (clampDelta deltaA', clampDelta deltaB')

/-- JS `value || BASE_RATING` on a rating read `pr.pvp[difficulty]`: both a
missing key (`undefined`) and a stored 0 are falsy and yield the base. -/
def jsOrBase : Option Int → Int
  | some r => if r = 0 then BASE_RATING else r
  | none => BASE_RATING

/-- `calculateRatingChanges(playerA, playerB, scoreA, scoreB, difficulty)`:
resolves each player's per-difficulty rating (lines 490-491) and runs the
delta computation. -/
noncomputable def calculateRatingChanges (playerA playerB : Player)
    (scoreA scoreB : ℚ) (difficulty : String) : Int × Int :=
  ratingDeltas (jsOrBase (getAssoc playerA.pvp difficulty))
    (jsOrBase (getAssoc playerB.pvp difficulty)) scoreA scoreB

/-- The post-delta rating update of `endMatch` (lines 591-598):
`Math.max(GAME_CONFIG.MIN_RATING, rating + delta)`. -/
def applyDelta (rating delta : Int) : Int := max MIN_RATING (rating + delta)

/-! ## Match termination and round progression -/

/-- `cleanupRoom` (lines 634-645): clear the pending match timer and delete
the room; both deletes are no-ops when already gone. -/
def cleanupRoom (st : ServerState) (roomId : String) : ServerState :=
  { st with
    roomTimeouts := st.roomTimeouts.filter (fun r => r != roomId),
    rooms := removeAssoc st.rooms roomId }

/-- `endMatch` (lines 542-622): resolve scores and winner, fetch both
profiles (aborting to cleanup with no broadcast when one is missing),
default absent ratings to the base, apply the computed deltas with the
non-negative floor, persist, broadcast `matchEnded`, and clean up. -/
noncomputable def endMatch (now : Nat) (st : ServerState) (roomId reason : String) :
    ServerState × List Event :=
  match getAssoc st.rooms roomId with
  | none => (st, [])
  | some room =>
    let p1 := room.players.getD 0 ""
    let p2 := room.players.getD 1 ""
    let score1 := (getAssoc room.scores p1).getD 0
    let score2 := (getAssoc room.scores p2).getD 0
    let winner : Option String :=
      if score1 > score2 then some p1
      else if score2 > score1 then some p2 else none
    match getAssoc st.playerStore p1, getAssoc st.playerStore p2 with
    | some playerA, some playerB =>
      let difficulty := room.difficulty
      let ratingA := jsOrBase (getAssoc playerA.pvp difficulty)
      let ratingB := jsOrBase (getAssoc playerB.pvp difficulty)
      let playerA' : Player := ⟨setAssoc playerA.pvp difficulty ratingA⟩
      let playerB' : Player := ⟨setAssoc playerB.pvp difficulty ratingB⟩
      let deltas := calculateRatingChanges playerA' playerB' score1 score2 difficulty
      let newRatingA := applyDelta ratingA deltas.1
      let newRatingB := applyDelta ratingB deltas.2
      let store' := setAssoc (setAssoc st.playerStore p1 ⟨setAssoc playerA'.pvp difficulty newRatingA⟩)
        p2 ⟨setAssoc playerB'.pvp difficulty newRatingB⟩
      let matchDuration := match room.startTime with | some t => now - t | none => 0
      (cleanupRoom { st with playerStore := store' } roomId,
        [Event.matchEnded reason room.scores winner
          [(p1, deltas.1), (p2, deltas.2)] [(p1, newRatingA), (p2, newRatingB)]
          matchDuration])
    | _, _ => (cleanupRoom st roomId, [])

/-- The eligible pool of `sendNextQuestion` at round start: unused questions
of the recomputed level and the room's difficulty. -/
def availableQuestionsFor (pool : List Question) (room : Room) : List Question :=
  pool.filter (fun q =>
    (q.levelNumber == some (roundStartLevel room)) && (q.difficulty == room.difficulty)
      && !(room.questionsAsked.contains q.id))

/-- The fallback pool of `sendNextQuestion`: any question of the room's
difficulty, ignoring `questionsAsked`. -/
def fallbackQuestionsFor (pool : List Question) (room : Room) : List Question :=
  pool.filter (fun q => q.difficulty == room.difficulty)

/-- The common tail of `sendNextQuestion` once a question is chosen: set the
recomputed level and the current question, record its id, clear the round's
responses, and broadcast the question with the answer field stripped
(JS sends `answer: undefined`; the strip is modelled by an empty string). -/
def issueQuestion (st : ServerState) (roomId : String) (room : Room)
    (level : Int) (chosen : Question) : ServerState × List Event :=
  let room' := { room with
    level := level,
    currentQuestion := some chosen,
    questionsAsked := room.questionsAsked ++ [chosen.id],
    responses := [] }
  (setRoom st roomId room',
    [Event.newQuestion { chosen with answer := "" } level
      (room.questionCount + 1) QUESTIONS_PER_MATCH])

/-- `sendNextQuestion` (lines 379-430): recompute the level from the minimum
score, pick from the unused pool of that level and difficulty, falling back
to any question of the difficulty, ending the match with reason
`no_questions` when even that pool is empty. -/
noncomputable def sendNextQuestion (pool : List Question) (pick now : Nat)
    (st : ServerState) (roomId : String) : ServerState × List Event :=
  match getAssoc st.rooms roomId with
  | none => (st, [])
  | some room =>
    let level := roundStartLevel room
    let availableQuestions := availableQuestionsFor pool room
    if availableQuestions.isEmpty then
      let fallbackQuestions := fallbackQuestionsFor pool room
      if fallbackQuestions.isEmpty then endMatch now st roomId "no_questions"
      else
        issueQuestion st roomId room level
          (fallbackQuestions.getD (pick % fallbackQuestions.length)
            ⟨none, "", "", "", none, "", ""⟩)
    else
      issueQuestion st roomId room level
        (availableQuestions.getD (pick % availableQuestions.length)
          ⟨none, "", "", "", none, "", ""⟩)

/-- `initializeMatch` (lines 358-377): zero each participant's score, mark
the room initialized, record the start time, broadcast `matchStarted`, and
send the first question. -/
noncomputable def initializeMatch (pool : List Question) (pick now : Nat)
    (st : ServerState) (roomId : String) : ServerState × List Event :=
  match getAssoc st.rooms roomId with
  | none => (st, [])
  | some room =>
    let room' := { room with
      scores := room.players.foldl (fun sc id => setAssoc sc id 0) room.scores,
      initialized := true,
      startTime := some now }
    let st' := setRoom st roomId room'
    let r := sendNextQuestion pool pick now st' roomId
    (r.1,
      Event.matchStarted ((ROUND_TIMEOUT : ℚ) / 1000) room'.level room'.difficulty
        QUESTIONS_PER_MATCH room'.playerNames :: r.2)

/-- The inbound triggers of a room, as `setupSocketForRoom` and the two
`setTimeout` sites wire them: a namespace connection (with the resulting
socket count), a `submitAnswer` event, a disconnect, the match-expiry timer
callback, and the 3-second settle delay scheduled by `processRoundResults`. -/
inductive Msg where
  | connection (roomId : String) (connectedCount : Nat)
  | submitAnswer (roomId playerId answer : String) (timeLeft : ℚ)
  | disconnect (roomId : String)
  | matchTimeoutFired (roomId : String)
  | settleFired (roomId : String)
deriving Repr, DecidableEq

/-- One event dispatch of the orchestrator.  `connection` initializes the
match when the room is uninitialized and the connected count reaches the
participant count; `disconnect` ends a match still short of its question
total (`handlePlayerDisconnect`); the match-expiry timer runs
`cleanupRoom(roomId, "timeout")` and nothing else; `settleFired` runs the
continuation `processRoundResults` scheduled - `endMatch("completed")` at
the question total, `sendNextQuestion` otherwise. -/
noncomputable def step (pool : List Question) (pick now : Nat)
    (st : ServerState) (msg : Msg) : ServerState × List Event :=
  match msg with
  | .connection roomId connectedCount =>
    match getAssoc st.rooms roomId with
    | none => (st, [Event.errorMessage "Room no longer exists"])
    | some room =>
      if !room.initialized && (connectedCount == room.players.length)
      then initializeMatch pool pick now st roomId
      else (st, [])
  | .submitAnswer roomId playerId answer timeLeft =>
    handleAnswerSubmission st roomId playerId answer timeLeft
  | .disconnect roomId =>
    match getAssoc st.rooms roomId with
    | none => (st, [])
    | some room =>
      if room.questionCount < QUESTIONS_PER_MATCH
      then endMatch now st roomId "player_disconnect"
      else (st, [])
  | .matchTimeoutFired roomId => (cleanupRoom st roomId, [])
  | .settleFired roomId =>
    match getAssoc st.rooms roomId with
    | none => (st, [])
    | some room =>
      if room.questionCount ≥ QUESTIONS_PER_MATCH
      then endMatch now st roomId "completed"
      else sendNextQuestion pool pick now st roomId

/-- Whether a broadcast is a `roundResult` event. -/
def isRoundResultB : Event → Bool
  | .roundResult _ _ _ _ => true
  | _ => false

/-! ## Concrete fixtures used by witnesses and counterexamples -/

/-- A loader-shaped question (easy, level 1); its `id` is `none` because the
loader never sets that field. -/
def q0 : Question :=
  { id := none, key := "QM1", questionLevel := "Easy 1", difficulty := "easy",
    levelNumber := some 1, prompt := "1+1", answer := "2" }

/-- The response recorded for `p1` in the mid-round fixture room. -/
def resp0 : Response := { answer := "2", correct := true, points := 1 }

/-- A mid-round room: both players connected and initialized, a question
outstanding, `p1` has answered, `p2` has not. -/
def room0 : Room :=
  { players := ["p1", "p2"],
    playerNames := [("p1", "Alice"), ("p2", "Bob")],
    scores := [("p1", 1), ("p2", 0)],
    difficulty := "easy", level := 1, initialized := true,
    responses := [("p1", resp0)], questionCount := 0,
    questionsAsked := [none], startTime := some 0,
    currentQuestion := some q0 }

/-- A default-rated stored player profile. -/
def player0 : Player := { pvp := [("easy", 1000)] }

/-- Server state holding the mid-round fixture room with its pending match
timer, and both player profiles. -/
def S0 : ServerState :=
  { rooms := [("r1", room0)],
    roomTimeouts := ["r1"],
    playerStore := [("p1", player0), ("p2", player0)] }

/-- A fresh room right after both players connected, before any answer. -/
def room1 : Room :=
  { room0 with
    scores := [("p1", 0), ("p2", 0)],
    responses := [],
    questionsAsked := [],
    currentQuestion := none }

/-- Server state holding the fresh fixture room. -/
def S1 : ServerState :=
  { rooms := [("r1", room1)],
    roomTimeouts := ["r1"],
    playerStore := [("p1", player0), ("p2", player0)] }

/-! ## C5: delta clamp and rating floor -/

theorem abs_clampDelta_le (d : Int) : |clampDelta d| ≤ 50 := by
  rw [abs_le]
  simp only [clampDelta, MAX_RATING_CHANGE]
  omega

/-- C5: for every pair of ratings and pair of scores, each final rating
delta has absolute value at most 50 (the `MAX_RATING_CHANGE` clamp), and
the rating of each player after `endMatch` applies the delta is at least 0
(the `MIN_RATING` floor of `Math.max`). -/
theorem ratingDeltas_bounded_and_rating_floor (ratingA ratingB : Int)
    (scoreA scoreB : ℚ) :
    |(ratingDeltas ratingA ratingB scoreA scoreB).1| ≤ 50 ∧
    |(ratingDeltas ratingA ratingB scoreA scoreB).2| ≤ 50 ∧
    0 ≤ applyDelta ratingA (ratingDeltas ratingA ratingB scoreA scoreB).1 ∧
    0 ≤ applyDelta ratingB (ratingDeltas ratingA ratingB scoreA scoreB).2 := by
  refine ⟨abs_clampDelta_le _, abs_clampDelta_le _, ?_, ?_⟩ <;>
    · simp only [applyDelta, MIN_RATING]
      omega

/-! ## C7: a duplicate submission is a no-op -/

/-- C7: once a participant has a recorded response for the current round,
handling another `submitAnswer` from the same participant returns the state
unchanged and broadcasts nothing — in particular that participant's score
and recorded response stay as they were. -/
theorem duplicate_submission_noop (st : ServerState)
    (roomId playerId answer : String) (timeLeft : ℚ) (room : Room)
    (q : Question) (resp : Response)
    (hroom : getAssoc st.rooms roomId = some room)
    (hq : room.currentQuestion = some q)
    (hresp : getAssoc room.responses playerId = some resp) :
    handleAnswerSubmission st roomId playerId answer timeLeft = (st, []) := by
  simp [handleAnswerSubmission, hroom, hq, hresp]

theorem duplicate_submission_noop_witness :
    getAssoc S0.rooms "r1" = some room0 ∧
    room0.currentQuestion = some q0 ∧
    getAssoc room0.responses "p1" = some resp0 ∧
    handleAnswerSubmission S0 "r1" "p1" "7" 30 = (S0, []) :=
  ⟨rfl, rfl, rfl,
    duplicate_submission_noop S0 "r1" "p1" "7" 30 room0 q0 resp0 rfl rfl rfl⟩

/-! ## C10: submission with no room or no current question is a no-op -/

/-- C10: a `submitAnswer` for an unknown room id, or for a room that has no
current question, returns without mutating any state and broadcasts
nothing. -/
theorem submission_no_room_or_question_noop (st : ServerState)
    (roomId playerId answer : String) (timeLeft : ℚ)
    (h : getAssoc st.rooms roomId = none ∨
      ∃ room, getAssoc st.rooms roomId = some room ∧ room.currentQuestion = none) :
    handleAnswerSubmission st roomId playerId answer timeLeft = (st, []) := by
  rcases h with h | ⟨room, hroom, hq⟩
  · simp [handleAnswerSubmission, h]
  · simp [handleAnswerSubmission, hroom, hq]

theorem submission_no_room_or_question_noop_witness :
    getAssoc S0.rooms "nope" = none ∧
    getAssoc S1.rooms "r1" = some room1 ∧ room1.currentQuestion = none ∧
    handleAnswerSubmission S0 "nope" "p1" "7" 30 = (S0, []) ∧
    handleAnswerSubmission S1 "r1" "p1" "7" 30 = (S1, []) :=
  ⟨rfl, rfl, rfl,
    submission_no_room_or_question_noop S0 "nope" "p1" "7" 30 (Or.inl rfl),
    submission_no_room_or_question_noop S1 "r1" "p1" "7" 30
      (Or.inr ⟨room1, rfl, rfl⟩)⟩

theorem getAssoc_setRoom_self (st : ServerState) (roomId : String) (room : Room) :
    getAssoc (setRoom st roomId room).rooms roomId = some room :=
  getAssoc_setAssoc_self _ _ _

/-! ## C8: scoring of a fresh submission -/

/-- C8: handling a fresh submission stores a response and adds the awarded
points to that participant's cumulative score, where correctness is the
case-insensitive whitespace-trimmed string comparison and the points are
`1 + min(0.5, (timeLeft/60) * 0.5)` when correct and exactly 0 when not
(60 being `ROUND_TIMEOUT/1000`, the round duration in seconds). -/
theorem fresh_submission_scoring (st : ServerState)
    (roomId playerId answer : String) (timeLeft : ℚ) (room : Room) (q : Question)
    (hroom : getAssoc st.rooms roomId = some room)
    (hq : room.currentQuestion = some q)
    (hfresh : getAssoc room.responses playerId = none) :
    ∃ room',
      getAssoc (handleAnswerSubmission st roomId playerId answer timeLeft).1.rooms
        roomId = some room' ∧
      getAssoc room'.scores playerId =
        some ((getAssoc room.scores playerId).getD 0 +
          awardedPoints (answersMatch answer q.answer) timeLeft) ∧
      getAssoc room'.responses playerId =
        some { answer := answer, correct := answersMatch answer q.answer,
               points := awardedPoints (answersMatch answer q.answer) timeLeft } ∧
      answersMatch answer q.answer = (answer.trim.toLower == q.answer.trim.toLower) ∧
      awardedPoints true timeLeft = 1 + min (1/2) (timeLeft / 60 * (1/2)) ∧
      awardedPoints false timeLeft = 0 := by
  have hpts60 : awardedPoints true timeLeft = 1 + min (1/2) (timeLeft / 60 * (1/2)) := by
    norm_num [awardedPoints, ROUND_TIMEOUT]
  set pts := awardedPoints (answersMatch answer q.answer) timeLeft with hpts
  set R' : Room := { room with
    scores := setAssoc room.scores playerId
      (((getAssoc room.scores playerId).getD 0) + pts),
    responses := setAssoc room.responses playerId
      { answer := answer, correct := answersMatch answer q.answer, points := pts } }
    with hR'
  have hstep : handleAnswerSubmission st roomId playerId answer timeLeft =
      if R'.responses.length == room.players.length
      then processRoundResults (setRoom st roomId R') roomId
      else (setRoom st roomId R', []) := by
    simp only [handleAnswerSubmission, hroom, hq, hfresh, Option.isSome_none, hR',
      Bool.false_eq_true, if_false, hpts]
  by_cases hlen : (R'.responses.length == room.players.length) = true
  · refine ⟨{ R' with questionCount := R'.questionCount + 1 }, ?_, ?_, ?_, rfl, hpts60, rfl⟩
    · rw [hstep, if_pos hlen]
      simp only [processRoundResults, getAssoc_setRoom_self]
    · exact getAssoc_setAssoc_self _ _ _
    · exact getAssoc_setAssoc_self _ _ _
  · refine ⟨R', ?_, ?_, ?_, rfl, hpts60, rfl⟩
    · rw [hstep, if_neg hlen]
      exact getAssoc_setRoom_self _ _ _
    · exact getAssoc_setAssoc_self _ _ _
    · exact getAssoc_setAssoc_self _ _ _

theorem fresh_submission_scoring_witness :
    getAssoc S0.rooms "r1" = some room0 ∧
    room0.currentQuestion = some q0 ∧
    getAssoc room0.responses "p2" = none ∧
    (∃ room',
      getAssoc (handleAnswerSubmission S0 "r1" "p2" " 2 " 30).1.rooms
        "r1" = some room' ∧
      getAssoc room'.scores "p2" =
        some ((getAssoc room0.scores "p2").getD 0 +
          awardedPoints (answersMatch " 2 " q0.answer) 30) ∧
      getAssoc room'.responses "p2" =
        some { answer := " 2 ", correct := answersMatch " 2 " q0.answer,
               points := awardedPoints (answersMatch " 2 " q0.answer) 30 } ∧
      answersMatch " 2 " q0.answer = (" 2 ".trim.toLower == q0.answer.trim.toLower) ∧
      awardedPoints true 30 = 1 + min (1/2) ((30 : ℚ) / 60 * (1/2)) ∧
      awardedPoints false 30 = 0) :=
  ⟨rfl, rfl, rfl,
    fresh_submission_scoring S0 "r1" "p2" " 2 " 30 room0 q0 rfl rfl rfl⟩

/-! ## C1: no re-issue while unused questions of the target level remain -/

/-- C1: whenever the eligible pool (unused questions of the recomputed level
and the room's difficulty) is non-empty, the question `sendNextQuestion`
issues is drawn from that pool — so its id is not in `questionsAsked` — and
its id is then recorded in `questionsAsked` while `responses` is cleared. -/
theorem fresh_question_selection (pool : List Question) (pick now : Nat)
    (st : ServerState) (roomId : String) (room : Room)
    (hroom : getAssoc st.rooms roomId = some room)
    (hav : availableQuestionsFor pool room ≠ []) :
    ∃ room' chosen,
      getAssoc (sendNextQuestion pool pick now st roomId).1.rooms roomId =
        some room' ∧
      room'.currentQuestion = some chosen ∧
      chosen ∈ availableQuestionsFor pool room ∧
      room.questionsAsked.contains chosen.id = false ∧
      room'.questionsAsked = room.questionsAsked ++ [chosen.id] ∧
      room'.responses = [] := by
  have hlen : 0 < (availableQuestionsFor pool room).length := List.length_pos.mpr hav
  have hidx : pick % (availableQuestionsFor pool room).length <
      (availableQuestionsFor pool room).length := Nat.mod_lt _ hlen
  have hgetD : (availableQuestionsFor pool room).getD
        (pick % (availableQuestionsFor pool room).length)
        ⟨none, "", "", "", none, "", ""⟩ =
      (availableQuestionsFor pool room)[pick % (availableQuestionsFor pool room).length] := by
    simp [List.getD_eq_getElem?_getD, List.getElem?_eq_getElem hidx]
  set chosen := (availableQuestionsFor pool room)[pick %
    (availableQuestionsFor pool room).length] with hc
  have hmem : chosen ∈ availableQuestionsFor pool room := List.getElem_mem hidx
  have hpred := (List.mem_filter.mp hmem).2
  have hnotasked : room.questionsAsked.contains chosen.id = false := by
    simp only [Bool.and_eq_true, Bool.not_eq_true'] at hpred
    exact hpred.2
  have hne : (availableQuestionsFor pool room).isEmpty = false := by
    simp [List.isEmpty_iff, hav]
  refine ⟨{ room with
      level := roundStartLevel room,
      currentQuestion := some chosen,
      questionsAsked := room.questionsAsked ++ [chosen.id],
      responses := [] }, chosen, ?_, rfl, hmem, hnotasked, rfl, rfl⟩
  simp only [sendNextQuestion, hroom, hne, Bool.false_eq_true, if_false,
    issueQuestion, hgetD, hc]
  exact getAssoc_setRoom_self _ _ _

theorem fresh_question_selection_witness :
    getAssoc S1.rooms "r1" = some room1 ∧
    availableQuestionsFor [q0] room1 ≠ [] ∧
    (∃ room' chosen,
      getAssoc (sendNextQuestion [q0] 0 0 S1 "r1").1.rooms "r1" = some room' ∧
      room'.currentQuestion = some chosen ∧
      chosen ∈ availableQuestionsFor [q0] room1 ∧
      room1.questionsAsked.contains chosen.id = false ∧
      room'.questionsAsked = room1.questionsAsked ++ [chosen.id] ∧
      room'.responses = []) :=
  ⟨rfl, by decide,
    fresh_question_selection [q0] 0 0 S1 "r1" room1 rfl (by decide)⟩

/-! ## C9: the level recomputation and the breakpoint table -/

theorem endMatch_removes (now : Nat) (st : ServerState) (roomId reason : String) :
    getAssoc (endMatch now st roomId reason).1.rooms roomId = none := by
  cases hr : getAssoc st.rooms roomId with
  | none =>
    simp only [endMatch, hr]
  | some room =>
    simp only [endMatch, hr]
    cases hA : getAssoc st.playerStore (room.players.getD 0 "") <;>
      cases hB : getAssoc st.playerStore (room.players.getD 1 "") <;>
      simp only [cleanupRoom, getAssoc_removeAssoc_self]

theorem getLevelFromScore_bounds (s : ℚ) :
    1 ≤ getLevelFromScore s ∧ getLevelFromScore s ≤ 10 := by
  simp only [getLevelFromScore]
  split_ifs <;> omega

set_option maxHeartbeats 800000 in
theorem getLevelFromScore_le_of_le (a : ℚ) :
    (a ≤ 5 → getLevelFromScore a ≤ 1) ∧ (a ≤ 9 → getLevelFromScore a ≤ 2) ∧
    (a ≤ 13 → getLevelFromScore a ≤ 3) ∧ (a ≤ 17 → getLevelFromScore a ≤ 4) ∧
    (a ≤ 21 → getLevelFromScore a ≤ 5) ∧ (a ≤ 25 → getLevelFromScore a ≤ 6) ∧
    (a ≤ 29 → getLevelFromScore a ≤ 7) ∧ (a ≤ 33 → getLevelFromScore a ≤ 8) ∧
    (a ≤ 37 → getLevelFromScore a ≤ 9) := by
  simp only [getLevelFromScore]
  split_ifs <;>
    refine ⟨?_, ?_, ?_, ?_, ?_, ?_, ?_, ?_, ?_⟩ <;>
    intro h <;>
    first | omega | linarith

theorem getLevelFromScore_mono : Monotone getLevelFromScore := by
  intro a b hab
  have ha := getLevelFromScore_le_of_le a
  have hA := (getLevelFromScore_bounds a).2
  nth_rewrite 2 [getLevelFromScore]
  split_ifs with h1 h2 h3 h4 h5 h6 h7 h8 h9
  · exact ha.1 (hab.trans h1)
  · exact ha.2.1 (hab.trans h2)
  · exact ha.2.2.1 (hab.trans h3)
  · exact ha.2.2.2.1 (hab.trans h4)
  · exact ha.2.2.2.2.1 (hab.trans h5)
  · exact ha.2.2.2.2.2.1 (hab.trans h6)
  · exact ha.2.2.2.2.2.2.1 (hab.trans h7)
  · exact ha.2.2.2.2.2.2.2.1 (hab.trans h8)
  · exact ha.2.2.2.2.2.2.2.2 (hab.trans h9)
  · exact hA

theorem getLevelFromScore_top (s : ℚ) (hs : 37 < s) : getLevelFromScore s = 10 := by
  simp only [getLevelFromScore]
  split_ifs <;> first | rfl | linarith

/-- C9: at round start the room's level is recomputed as
`getLevelFromScore` of the minimum current score (whenever the room survives
the round start, its level equals that recomputation); the breakpoint table
is monotone, always yields a level in 1..10, and yields the maximum level 10
for any score above the last breakpoint (37). -/
theorem level_recomputation_properties :
    (∀ (pool : List Question) (pick now : Nat) (st : ServerState)
        (roomId : String) (room room' : Room),
        getAssoc st.rooms roomId = some room →
        getAssoc (sendNextQuestion pool pick now st roomId).1.rooms roomId =
          some room' →
        room'.level = roundStartLevel room) ∧
    (∀ (room : Room) (p1 p2 : String) (s1 s2 : ℚ),
        room.scores = [(p1, s1), (p2, s2)] →
        roundStartLevel room = getLevelFromScore (min s1 s2)) ∧
    Monotone getLevelFromScore ∧
    (∀ s : ℚ, 1 ≤ getLevelFromScore s ∧ getLevelFromScore s ≤ 10) ∧
    (∀ s : ℚ, 37 < s → getLevelFromScore s = 10) := by
  refine ⟨?_, ?_, ?_, ?_, ?_⟩
  · intro pool pick now st roomId room room' hroom hroom'
    revert hroom'
    simp only [sendNextQuestion, hroom]
    by_cases hav : (availableQuestionsFor pool room).isEmpty
    · by_cases hfb : (fallbackQuestionsFor pool room).isEmpty
      · simp only [hav, hfb, if_true, if_pos]
        intro hroom'
        rw [endMatch_removes] at hroom'
        exact absurd hroom' (by simp)
      · simp only [hav, hfb, if_true, Bool.false_eq_true, if_false, issueQuestion,
          getAssoc_setRoom_self]
        intro hroom'
        cases hroom'
        rfl
    · simp only [hav, Bool.false_eq_true, if_false, issueQuestion,
        getAssoc_setRoom_self]
      intro hroom'
      cases hroom'
      rfl
  · intro room p1 p2 s1 s2 hsc
    simp [roundStartLevel, hsc, jsMinList]
  · exact getLevelFromScore_mono
  · exact getLevelFromScore_bounds
  · exact getLevelFromScore_top

/-! ## C3: the match-expiry timer -/

/-- The match-expiry timer callback (`setTimeout(() => cleanupRoom(roomId,
"timeout"), GAME_CONFIG.MATCH_TIMEOUT)`) only runs `cleanupRoom`: it removes
the room and its pending timer from the registry, broadcasts nothing — in
particular no `matchEnded` — and leaves the player store (ratings)
untouched. -/
theorem matchTimeout_cleanup_only (pool : List Question) (pick now : Nat)
    (st : ServerState) (roomId : String) :
    (step pool pick now st (Msg.matchTimeoutFired roomId)).2 = [] ∧
    getAssoc (step pool pick now st (Msg.matchTimeoutFired roomId)).1.rooms
      roomId = none ∧
    (step pool pick now st (Msg.matchTimeoutFired roomId)).1.playerStore =
      st.playerStore ∧
    (step pool pick now st (Msg.matchTimeoutFired roomId)).1 =
      cleanupRoom st roomId := by
  refine ⟨rfl, ?_, rfl, rfl⟩
  simp only [step, cleanupRoom]
  exact getAssoc_removeAssoc_self _ _

/-- Counterexample to C3 as stated: on a live room (`room0` is present in
`S0` with a pending timer and both player profiles in the store), the
match-expiry timer firing broadcasts no event at all — so no terminal
`matchEnded` with reason `timeout` — and changes no rating, though it does
remove the room from the registry. -/
theorem matchTimeout_no_matchEnded_counterexample :
    getAssoc S0.rooms "r1" = some room0 ∧
    (step [] 0 0 S0 (Msg.matchTimeoutFired "r1")).2 = [] ∧
    getAssoc (step [] 0 0 S0 (Msg.matchTimeoutFired "r1")).1.rooms "r1" = none ∧
    (step [] 0 0 S0 (Msg.matchTimeoutFired "r1")).1.playerStore = S0.playerStore :=
  ⟨rfl, rfl, rfl, rfl⟩

/-! ## C2: no round timer exists in the code -/

theorem getAssoc_singleton_ne {β : Type} (k' k : String) (v : β) (h : k ≠ k') :
    getAssoc [(k', v)] k = none := by
  rw [getAssoc_cons, if_neg (Ne.symm h)]
  rfl

/-- C2 evaluation: in the mid-round state `S0` (question outstanding, `p1`
answered, `p2` silent), the only inbound trigger that ever broadcasts a
`roundResult` — i.e. completes the round — is a second `submitAnswer` from a
participant other than `p1`.  The code registers no round timer: `Msg`
exhausts every handler `setupSocketForRoom` and the two `setTimeout` sites
install, and neither timer message completes the round or scores the silent
participant, so a round with a silent participant never completes. -/
theorem round_completion_requires_second_submission (msg : Msg) (pick now : Nat)
    (h : ((step [] pick now S0 msg).2.any isRoundResultB) = true) :
    ∃ pid a t, msg = Msg.submitAnswer "r1" pid a t ∧ pid ≠ "p1" := by
  have hS0 : S0.rooms = [("r1", room0)] := rfl
  cases msg with
  | connection rid c =>
    by_cases hr : rid = "r1"
    · subst hr
      have hfalse : ((step [] pick now S0 (Msg.connection "r1" c)).2.any
          isRoundResultB) = false := by
        have e : getAssoc S0.rooms "r1" = some room0 := rfl
        have einit : room0.initialized = true := rfl
        simp [step, e, einit]
      rw [hfalse] at h
      cases h
    · have e : getAssoc S0.rooms rid = none := by
        rw [hS0]
        exact getAssoc_singleton_ne _ _ _ hr
      simp [step, e, isRoundResultB] at h
  | submitAnswer rid pid a t =>
    by_cases hr : rid = "r1"
    · subst hr
      by_cases hp : pid = "p1"
      · subst hp
        have e : getAssoc S0.rooms "r1" = some room0 := rfl
        have eq0 : room0.currentQuestion = some q0 := rfl
        have eresp : getAssoc room0.responses "p1" = some resp0 := rfl
        simp [step, handleAnswerSubmission, e, eq0, eresp] at h
      · exact ⟨pid, a, t, rfl, hp⟩
    · have e : getAssoc S0.rooms rid = none := by
        rw [hS0]
        exact getAssoc_singleton_ne _ _ _ hr
      simp [step, handleAnswerSubmission, e] at h
  | disconnect rid =>
    by_cases hr : rid = "r1"
    · subst hr
      have hfalse : ((step [] pick now S0 (Msg.disconnect "r1")).2.any
          isRoundResultB) = false := rfl
      rw [hfalse] at h
      cases h
    · have e : getAssoc S0.rooms rid = none := by
        rw [hS0]
        exact getAssoc_singleton_ne _ _ _ hr
      simp [step, e] at h
  | matchTimeoutFired rid =>
    simp [step] at h
  | settleFired rid =>
    by_cases hr : rid = "r1"
    · subst hr
      have hfalse : ((step [] pick now S0 (Msg.settleFired "r1")).2.any
          isRoundResultB) = false := rfl
      rw [hfalse] at h
      cases h
    · have e : getAssoc S0.rooms rid = none := by
        rw [hS0]
        exact getAssoc_singleton_ne _ _ _ hr
      simp [step, e] at h

theorem round_completion_requires_second_submission_witness :
    ((step [] 0 0 S0 (Msg.submitAnswer "r1" "p2" "2" 0)).2.any isRoundResultB) = true ∧
    (∃ pid a t, Msg.submitAnswer "r1" "p2" "2" 0 = Msg.submitAnswer "r1" pid a t ∧
      pid ≠ "p1") :=
  ⟨rfl, round_completion_requires_second_submission
    (Msg.submitAnswer "r1" "p2" "2" 0) 0 0 rfl⟩

/-! ## C6: the worked rating example -/

theorem jsRound_eq_of (x : ℝ) (n : Int) (h1 : (n : ℝ) ≤ x + 1/2)
    (h2 : x + 1/2 < n + 1) : jsRound x = n := by
  simp only [jsRound]
  rw [Int.floor_eq_iff]
  exact ⟨h1, h2⟩

theorem expectedScoreA_self (r : Int) : expectedScoreA r r = 1/2 := by
  simp [expectedScoreA]
  norm_num

theorem ratingDeltas_of_gt (ratingA ratingB : Int) (scoreA scoreB : ℚ)
    (hgt : scoreB < scoreA) :
    ratingDeltas ratingA ratingB scoreA scoreB =
      (clampDelta (jsRound (32 * (1 - expectedScoreA ratingA ratingB)) +
          performanceBonus scoreA scoreB),
       clampDelta (jsRound (32 * (0 - (1 - expectedScoreA ratingA ratingB))) -
          performanceBonus scoreA scoreB)) := by
  simp only [ratingDeltas, actualScoreA, actualScoreB, gt_iff_lt, if_pos hgt]
  norm_num

/-- C6: with both ratings 1000 and scores 6 versus 4, the computation yields
expected score 0.5 for A, actual score 1 for A, base delta
`round(32 * (1 - 0.5)) = 16`, performance bonus `min(10, floor(2*2)) = 4`,
and final deltas `(+20, -20)`. -/
theorem rating_example_1000_1000_6_4 :
    expectedScoreA 1000 1000 = 1/2 ∧
    actualScoreA 6 4 = 1 ∧
    jsRound (32 * (1 - expectedScoreA 1000 1000)) = 16 ∧
    performanceBonus 6 4 = 4 ∧
    ratingDeltas 1000 1000 6 4 = (20, -20) := by
  have he : expectedScoreA 1000 1000 = 1/2 := expectedScoreA_self 1000
  have hbase : jsRound (32 * (1 - expectedScoreA 1000 1000)) = 16 := by
    rw [he]
    exact jsRound_eq_of _ _ (by norm_num) (by norm_num)
  have hbaseB : jsRound (32 * (0 - (1 - expectedScoreA 1000 1000))) = -16 := by
    rw [he]
    exact jsRound_eq_of _ _ (by norm_num) (by norm_num)
  have hbonus : performanceBonus 6 4 = 4 := by
    norm_num [performanceBonus]
  refine ⟨he, by norm_num [actualScoreA], hbase, hbonus, ?_⟩
  rw [ratingDeltas_of_gt 1000 1000 6 4 (by norm_num), hbase, hbaseB, hbonus]
  decide

/-! ## C4: swapping the players negates both deltas -/

theorem one_div_one_add_inv (y : ℝ) (hy : 0 < y) :
    1 / (1 + y⁻¹) = 1 - 1 / (1 + y) := by
  have h1 : y ≠ 0 := ne_of_gt hy
  have h2 : 1 + y ≠ 0 := by positivity
  have hstep : 1 + y⁻¹ = (1 + y) / y := by
    field_simp
    ring
  rw [hstep, one_div_div, eq_sub_iff_add_eq, div_add_div _ _ h2 h2, ← sub_eq_zero]
  field_simp
  ring

theorem expectedScoreA_swap (ratingA ratingB : Int) :
    expectedScoreA ratingB ratingA = 1 - expectedScoreA ratingA ratingB := by
  unfold expectedScoreA
  have h1 : ((((ratingA - ratingB) : Int)) : ℝ) / 400 =
      -(((((ratingB - ratingA) : Int)) : ℝ) / 400) := by
    push_cast
    ring
  rw [h1, Real.rpow_neg (by norm_num : (0:ℝ) ≤ 10)]
  exact one_div_one_add_inv _ (Real.rpow_pos_of_pos (by norm_num) _)

theorem expectedScoreA_pos (ratingA ratingB : Int) :
    0 < expectedScoreA ratingA ratingB := by
  unfold expectedScoreA
  positivity

theorem expectedScoreA_lt_one (ratingA ratingB : Int) :
    expectedScoreA ratingA ratingB < 1 := by
  unfold expectedScoreA
  have hy : (0:ℝ) < (10:ℝ) ^ (((((ratingB - ratingA) : Int)) : ℝ) / 400) :=
    Real.rpow_pos_of_pos (by norm_num) _
  rw [div_lt_one (by positivity)]
  linarith

theorem ratingDeltas_of_lt (ratingA ratingB : Int) (scoreA scoreB : ℚ)
    (hlt : scoreA < scoreB) :
    ratingDeltas ratingA ratingB scoreA scoreB =
      (clampDelta (jsRound (32 * (0 - expectedScoreA ratingA ratingB)) -
          performanceBonus scoreA scoreB),
       clampDelta (jsRound (32 * (1 - (1 - expectedScoreA ratingA ratingB))) +
          performanceBonus scoreA scoreB)) := by
  have h1 : ¬ (scoreB < scoreA) := lt_asymm hlt
  simp only [ratingDeltas, actualScoreA, actualScoreB, gt_iff_lt, if_neg h1,
    if_pos hlt]
  norm_num

theorem ratingDeltas_of_eq (ratingA ratingB : Int) (scoreA scoreB : ℚ)
    (heq : scoreA = scoreB) :
    ratingDeltas ratingA ratingB scoreA scoreB =
      (clampDelta (jsRound (32 * (1/2 - expectedScoreA ratingA ratingB))),
       clampDelta (jsRound (32 * (1/2 - (1 - expectedScoreA ratingA ratingB))))) := by
  subst heq
  have h1 : ¬ (scoreA < scoreA) := lt_irrefl _
  simp only [ratingDeltas, actualScoreA, actualScoreB, gt_iff_lt, if_neg h1]
  norm_num

theorem jsRound_neg_of_no_half (x : ℝ) (h : ∀ m : Int, x + 1/2 ≠ (m : ℝ)) :
    jsRound (-x) = - jsRound x := by
  simp only [jsRound]
  have h1 : (⌊x + 1/2⌋ : ℝ) ≤ x + 1/2 := Int.floor_le _
  have h1' : (⌊x + 1/2⌋ : ℝ) < x + 1/2 :=
    lt_of_le_of_ne h1 (fun he => h ⌊x + 1/2⌋ he.symm)
  have h2 : x + 1/2 < ⌊x + 1/2⌋ + 1 := Int.lt_floor_add_one _
  rw [Int.floor_eq_iff]
  constructor
  · push_cast
    linarith
  · push_cast
    linarith

theorem ten_factorization_two : (10:ℕ).factorization 2 = 1 := by
  have h : (10:ℕ) = 2 * 5 := rfl
  rw [h, Nat.factorization_mul (by norm_num) (by norm_num),
    Nat.Prime.factorization (by norm_num), Nat.Prime.factorization (by norm_num)]
  simp [Finsupp.single_apply]

theorem dvd_400_of_pow_eq (k n : ℕ) (hk : k ^ 400 = 10 ^ n) : 400 ∣ n := by
  have hk0 : k ≠ 0 := by
    intro h0
    rw [h0, zero_pow (by norm_num : (400:ℕ) ≠ 0)] at hk
    exact pow_ne_zero n (by norm_num : (10:ℕ) ≠ 0) hk.symm
  have h2 : ((k:ℕ) ^ 400).factorization 2 = ((10:ℕ) ^ n).factorization 2 := by
    rw [hk]
  rw [Nat.factorization_pow, Nat.factorization_pow] at h2
  simp only [Finsupp.smul_apply, smul_eq_mul, ten_factorization_two, mul_one] at h2
  exact ⟨k.factorization 2, h2.symm⟩

theorem irrational_ten_rpow (n : ℕ) (_hn : 0 < n) (hnd : ¬ (400 ∣ n)) :
    Irrational ((10:ℝ) ^ ((n:ℝ) / 400)) := by
  have hxr : ((10:ℝ) ^ ((n:ℝ) / 400)) ^ (400:ℕ) = (((10:ℤ) ^ n : ℤ) : ℝ) := by
    rw [← Real.rpow_natCast ((10:ℝ) ^ ((n:ℝ) / 400)) 400,
      ← Real.rpow_mul (by norm_num : (0:ℝ) ≤ 10),
      show (n:ℝ) / 400 * ((400:ℕ):ℝ) = ((n:ℕ):ℝ) by push_cast; field_simp,
      Real.rpow_natCast]
    push_cast
    ring
  refine irrational_nrt_of_notint_nrt 400 ((10:ℤ) ^ n) hxr ?_ (by norm_num)
  rintro ⟨y, hy⟩
  have hypos : (0:ℝ) < (y:ℝ) := by
    rw [← hy]
    exact Real.rpow_pos_of_pos (by norm_num) _
  have hy0 : 0 < y := by exact_mod_cast hypos
  have hyint : y ^ (400:ℕ) = (10:ℤ) ^ n := by
    have hyp : (y:ℝ) ^ (400:ℕ) = (((10:ℤ) ^ n : ℤ) : ℝ) := by
      rw [← hy]
      exact hxr
    exact_mod_cast hyp
  have hynat : y.toNat ^ 400 = 10 ^ n := by
    have h' : ((y.toNat : ℤ)) ^ 400 = (10:ℤ) ^ n := by
      rw [Int.toNat_of_nonneg hy0.le]
      exact hyint
    exact_mod_cast h'
  exact hnd (dvd_400_of_pow_eq _ _ hynat)

theorem irrational_ten_rpow_int (d : Int) (hnd : ¬ ((400:Int) ∣ d)) :
    Irrational ((10:ℝ) ^ ((d : ℝ) / 400)) := by
  rcases lt_trichotomy d 0 with hneg | rfl | hpos
  · obtain ⟨n, hn⟩ : ∃ n : ℕ, -d = (n:ℤ) :=
      ⟨(-d).toNat, (Int.toNat_of_nonneg (by omega)).symm⟩
    have hd : (d:ℝ) / 400 = -(((n:ℕ):ℝ) / 400) := by
      have hc : ((-d : ℤ):ℝ) = ((n:ℕ):ℝ) := by
        exact_mod_cast congrArg (fun z : ℤ => (z:ℝ)) hn
      push_cast at hc
      linarith [hc]
    rw [hd, Real.rpow_neg (by norm_num : (0:ℝ) ≤ 10)]
    have hpos' : 0 < n := by omega
    have hnd' : ¬ (400 ∣ n) := by
      intro hdvd
      apply hnd
      have h4 : (400:ℤ) ∣ (n:ℤ) := Int.natCast_dvd_natCast.mpr hdvd
      rw [← hn] at h4
      exact dvd_neg.mp h4
    exact (irrational_ten_rpow n hpos' hnd').inv
  · exact absurd (dvd_zero (400:Int)) hnd
  · obtain ⟨n, hn⟩ : ∃ n : ℕ, d = (n:ℤ) :=
      ⟨d.toNat, (Int.toNat_of_nonneg hpos.le).symm⟩
    have hd : (d:ℝ) / 400 = ((n:ℕ):ℝ) / 400 := by
      rw [hn]
      push_cast
      ring
    rw [hd]
    have hpos' : 0 < n := by omega
    have hnd' : ¬ (400 ∣ n) := by
      intro hdvd
      apply hnd
      rw [hn]
      exact Int.natCast_dvd_natCast.mpr hdvd
    exact irrational_ten_rpow n hpos' hnd'

theorem odd_mul_one_add_pow_ten_ne (w : Int) (i : ℕ) (hw : w % 2 = 1) :
    w * (1 + 10 ^ i) ≠ 64 := by
  intro h
  rcases Nat.eq_zero_or_pos i with hi | hi
  · subst hi
    norm_num at h
    omega
  · have hdvd : ((1:Int) + 10 ^ i) ∣ 64 := ⟨w, by rw [← h]; ring⟩
    have hle : (1:Int) + 10 ^ i ≤ 64 := Int.le_of_dvd (by norm_num) hdvd
    by_cases hi1 : i = 1
    · subst hi1
      norm_num at h
      omega
    · have hi2 : 2 ≤ i := by omega
      have h100 : (10:Int) ^ 2 ≤ 10 ^ i := pow_le_pow_right₀ (by norm_num) hi2
      norm_num at h100
      omega

theorem mul_pow_ten_add_one_ne (w : Int) (i : ℕ) (hi : 1 ≤ i) :
    w * (10 ^ i + 1) ≠ 64 * 10 ^ i := by
  intro h
  have hdvd : ((10:Int) ^ i + 1) ∣ 64 * 10 ^ i := ⟨w, by rw [← h]; ring⟩
  have hco : IsCoprime ((10:Int) ^ i + 1) ((10:Int) ^ i) := ⟨1, -1, by ring⟩
  have hdvd64 : ((10:Int) ^ i + 1) ∣ 64 := hco.dvd_of_dvd_mul_right hdvd
  have hle : (10:Int) ^ i + 1 ≤ 64 := Int.le_of_dvd (by norm_num) hdvd64
  by_cases hi1 : i = 1
  · subst hi1
    obtain ⟨c, hc⟩ := hdvd64
    norm_num at hc
    omega
  · have hi2 : 2 ≤ i := by omega
    have h100 : (10:Int) ^ 2 ≤ 10 ^ i := pow_le_pow_right₀ (by norm_num) hi2
    norm_num at h100
    omega

theorem no_half_integer (ratingA ratingB : Int) (a : ℚ)
    (ha : a = 0 ∨ a = 1/2 ∨ a = 1) (m : Int) :
    32 * ((a : ℝ) - expectedScoreA ratingA ratingB) + 1/2 ≠ (m : ℝ) := by
  intro heq
  by_cases hdvd : (400:Int) ∣ (ratingB - ratingA)
  · obtain ⟨j, hj⟩ := hdvd
    have hE : expectedScoreA ratingA ratingB = 1 / (1 + (10:ℝ) ^ (j : Int)) := by
      unfold expectedScoreA
      rw [hj, show ((((400 * j) : Int)) : ℝ) / 400 = ((j : Int) : ℝ) by push_cast; ring,
        Real.rpow_intCast]
    rw [hE] at heq
    have heqQ : 32 * (a - 1 / (1 + (10:ℚ) ^ (j : Int))) + 1/2 = (m:ℚ) := by
      have hcast : ((32 * (a - 1 / (1 + (10:ℚ) ^ (j : Int))) + 1/2 : ℚ) : ℝ) =
          32 * ((a:ℝ) - 1 / (1 + (10:ℝ) ^ (j : Int))) + 1/2 := by
        push_cast
        ring
      have h2 := hcast.trans heq
      exact_mod_cast h2
    have hu : (0:ℚ) < (10:ℚ) ^ (j : Int) := zpow_pos (by norm_num) _
    have hne : (1:ℚ) + (10:ℚ) ^ (j : Int) ≠ 0 := by positivity
    have hEu : (1 / (1 + (10:ℚ) ^ (j : Int))) * (1 + (10:ℚ) ^ (j : Int)) = 1 :=
      one_div_mul_cancel hne
    obtain ⟨w, hw_odd, hw_cast⟩ :
        ∃ w : Int, w % 2 = 1 ∧ ((w:ℚ)) = 64 * a + 1 - 2 * (m:ℚ) := by
      rcases ha with rfl | rfl | rfl
      · exact ⟨1 - 2 * m, by omega, by push_cast; ring⟩
      · exact ⟨33 - 2 * m, by omega, by push_cast; ring⟩
      · exact ⟨65 - 2 * m, by omega, by push_cast; ring⟩
    have hkey : (w:ℚ) * (1 + (10:ℚ) ^ (j : Int)) = 64 := by
      rw [hw_cast]
      linear_combination (2 * (1 + (10:ℚ) ^ (j : Int))) * heqQ + 64 * hEu
    rcases le_or_lt 0 j with hj0 | hj0
    · obtain ⟨i, hi⟩ : ∃ i : ℕ, j = (i:ℤ) := ⟨j.toNat, (Int.toNat_of_nonneg hj0).symm⟩
      rw [hi, zpow_natCast] at hkey
      have hkeyZ : w * (1 + 10 ^ i) = 64 := by exact_mod_cast hkey
      exact odd_mul_one_add_pow_ten_ne w i hw_odd hkeyZ
    · obtain ⟨i, hi⟩ : ∃ i : ℕ, j = -(i:ℤ) :=
        ⟨(-j).toNat, by rw [Int.toNat_of_nonneg (by omega)]; omega⟩
      have hipos : 1 ≤ i := by
        rcases Nat.eq_zero_or_pos i with h0 | h1
        · omega
        · exact h1
      rw [hi, zpow_neg, zpow_natCast] at hkey
      have h10 : ((10:ℚ) ^ i) ≠ 0 := by positivity
      have hinv : ((10:ℚ) ^ i)⁻¹ * (10:ℚ) ^ i = 1 := inv_mul_cancel₀ h10
      have hkey2 : (w:ℚ) * ((10:ℚ) ^ i + 1) = 64 * (10:ℚ) ^ i := by
        linear_combination ((10:ℚ) ^ i) * hkey - (w:ℚ) * hinv
      have hkeyZ : w * (10 ^ i + 1) = 64 * 10 ^ i := by exact_mod_cast hkey2
      exact mul_pow_ten_add_one_ne w i hipos hkeyZ
  · have hx := irrational_ten_rpow_int (ratingB - ratingA) hdvd
    have hE_irr : Irrational (expectedScoreA ratingA ratingB) := by
      unfold expectedScoreA
      rw [one_div]
      have h1 : Irrational
          (1 + (10:ℝ) ^ (((((ratingB - ratingA) : Int)) : ℝ) / 400)) := by
        simpa using hx.rat_add 1
      exact h1.inv
    exact hE_irr.ne_rat ((32 * a + 1/2 - m) / 32) (by
      rw [show ((((32 * a + 1/2 - m) / 32 : ℚ)) : ℝ) =
        (32 * (a:ℝ) + 1/2 - (m:ℝ)) / 32 by push_cast; ring]
      linarith)

/-- C4: the rating-delta computation is a pure function of ratings and
scores (hence deterministic), and swapping the two players' arguments —
`ratingA` with `ratingB` and `scoreA` with `scoreB` — yields exactly the
negations of the original two outputs. -/
theorem ratingDeltas_swap_neg (ratingA ratingB : Int) (scoreA scoreB : ℚ) :
    ratingDeltas ratingB ratingA scoreB scoreA =
      (-(ratingDeltas ratingA ratingB scoreA scoreB).1,
       -(ratingDeltas ratingA ratingB scoreA scoreB).2) := by
  have hbonus : performanceBonus scoreB scoreA = performanceBonus scoreA scoreB := by
    simp [performanceBonus, abs_sub_comm]
  rcases lt_trichotomy scoreA scoreB with hlt | heq | hgt
  · rw [ratingDeltas_of_gt ratingB ratingA scoreB scoreA hlt,
      ratingDeltas_of_lt ratingA ratingB scoreA scoreB hlt,
      expectedScoreA_swap ratingA ratingB, hbonus]
    set e := expectedScoreA ratingA ratingB with he
    have hx : ∀ m : Int, 32 * ((0:ℝ) - e) + 1/2 ≠ (m:ℝ) := by
      intro m hc
      apply no_half_integer ratingA ratingB 0 (Or.inl rfl) m
      push_cast
      rw [← he]
      exact hc
    have hneg := jsRound_neg_of_no_half (32 * ((0:ℝ) - e)) hx
    rw [show (32:ℝ) * (1 - (1 - e)) = -(32 * ((0:ℝ) - e)) from by ring,
      show (32:ℝ) * (0 - (1 - (1 - e))) = 32 * ((0:ℝ) - e) from by ring,
      hneg, Prod.mk.injEq]
    constructor <;>
      · simp only [clampDelta, MAX_RATING_CHANGE]
        omega
  · rw [ratingDeltas_of_eq ratingB ratingA scoreB scoreA heq.symm,
      ratingDeltas_of_eq ratingA ratingB scoreA scoreB heq,
      expectedScoreA_swap ratingA ratingB]
    set e := expectedScoreA ratingA ratingB with he
    have hx : ∀ m : Int, 32 * ((1/2:ℝ) - e) + 1/2 ≠ (m:ℝ) := by
      intro m hc
      apply no_half_integer ratingA ratingB (1/2) (Or.inr (Or.inl rfl)) m
      push_cast
      rw [← he]
      exact hc
    have hneg := jsRound_neg_of_no_half (32 * ((1/2:ℝ) - e)) hx
    rw [show (32:ℝ) * (1/2 - (1 - e)) = -(32 * ((1/2:ℝ) - e)) from by ring,
      show (32:ℝ) * (1/2 - (1 - (1 - e))) = 32 * ((1/2:ℝ) - e) from by ring,
      hneg, Prod.mk.injEq]
    constructor <;>
      · simp only [clampDelta, MAX_RATING_CHANGE]
        omega
  · rw [ratingDeltas_of_lt ratingB ratingA scoreB scoreA hgt,
      ratingDeltas_of_gt ratingA ratingB scoreA scoreB hgt,
      expectedScoreA_swap ratingA ratingB, hbonus]
    set e := expectedScoreA ratingA ratingB with he
    have hx : ∀ m : Int, 32 * ((1:ℝ) - e) + 1/2 ≠ (m:ℝ) := by
      intro m hc
      apply no_half_integer ratingA ratingB 1 (Or.inr (Or.inr rfl)) m
      push_cast
      rw [← he]
      exact hc
    have hneg := jsRound_neg_of_no_half (32 * ((1:ℝ) - e)) hx
    rw [show (32:ℝ) * (0 - (1 - e)) = -(32 * ((1:ℝ) - e)) from by ring,
      show (32:ℝ) * (1 - (1 - (1 - e))) = 32 * ((1:ℝ) - e) from by ring,
      hneg, Prod.mk.injEq]
    constructor <;>
      · simp only [clampDelta, MAX_RATING_CHANGE]
        omega

end MathGame
